import Mathlib

/-
Verification of `praborrow-logistics` (src/src/lib.rs): a zero-copy buffer
abstraction `RawResource` over a Rust `Vec<u8>`.

Shallow embedding conventions:
* A Rust `Vec<u8>` is modelled as an allocation descriptor: start address,
  the list of valid bytes, and the allocated capacity.  The proof fields
  record invariants that Rust's `Vec` itself maintains (its buffer pointer
  is never null, and its logical length never exceeds its capacity).
* `RawResource` stores the three fields `ptr`, `len`, `cap` exactly as in
  the source; the extra `mem` field models the contents of the heap block
  that `ptr` points to (its `len` valid bytes), so that `as_slice` — which
  in Rust reads memory through the pointer — has a meaning in the model.
* `impl Drop for RawResource` rebuilds the `Vec` via
  `Vec::from_raw_parts(ptr, len, cap)` and lets it drop, which hands the
  allocator a single deallocation request for `cap` bytes at `ptr`.  The
  model makes that request explicit as an `Option DeallocRequest`.
* Rust `&self` accessor methods are additionally modelled as state
  transformers (value, post-state) so that frame properties can be stated.
-/

namespace PraborrowLogistics

/-- Model of a Rust `Vec<u8>`: start address of the heap allocation, the
list of valid bytes, and the allocated capacity.  `addr_ne` and `le_cap`
are invariants maintained by Rust's `Vec` (the buffer pointer is `NonNull`,
and `len <= capacity`). -/
structure Vec where
  addr : Nat
  data : List Nat
  cap : Nat
  addr_ne : addr ≠ 0
  le_cap : data.length ≤ cap

/-- Rust `Vec::len`: number of valid bytes. -/
def Vec.len (v : Vec) : Nat := v.data.length

/-- Rust `Vec::is_empty`. -/
def Vec.is_empty (v : Vec) : Bool := v.data.isEmpty

/-- Rust `Vec::capacity`. -/
def Vec.capacity (v : Vec) : Nat := v.cap

/-- Rust `Vec::as_mut_ptr`: the address of the allocation's first byte. -/
def Vec.as_mut_ptr (v : Vec) : Nat := v.addr

/-- Model of `RawResource` (src/src/lib.rs lines 42-47): the three stored
fields `ptr`, `len`, `cap`.  The `mem` field is not a stored field of the
struct: it models the bytes of the heap block at `ptr` (its `len` valid
bytes), which `as_slice` reads through the pointer. -/
structure RawResource where
  ptr : Nat
  len : Nat
  cap : Nat
  mem : List Nat
deriving DecidableEq

/-- The error message returned by `refine` for empty input — the single
`EmptyBuffer` failure mode of the component. -/
def emptyBufferMsg : String :=
  "Cannot refine empty data: buffer must contain at least one byte"

/-- Model of `RawResource::refine` (src/src/lib.rs lines 85-96): rejects an
empty vector with the `EmptyBuffer` error; otherwise wraps the input in
`ManuallyDrop` (disarming its own deallocation) and stores its pointer,
length and capacity.  `mem := data.data` records that the new resource's
pointer refers to the very same bytes (no byte is copied). -/
def RawResource.refine (data : Vec) : Except String RawResource :=
  if data.is_empty then
    .error emptyBufferMsg
  else
    .ok { ptr := data.as_mut_ptr, len := data.len, cap := data.capacity,
          mem := data.data }

/-- A deallocation request handed to the allocator: the address of the
allocation and its size in bytes. -/
structure DeallocRequest where
  addr : Nat
  size : Nat
deriving DecidableEq

/-- Model of `impl Drop for RawResource` (src/src/lib.rs lines 55-68): if
the stored pointer is non-null and `cap > 0`, the vector is rebuilt by
`Vec::from_raw_parts(self.ptr, self.len, self.cap)` and dropped, which
issues one deallocation request to the allocator for an allocation of
`cap` bytes at `ptr`; otherwise no request is issued. -/
def RawResource.dropRequest (r : RawResource) : Option DeallocRequest :=
  if r.ptr ≠ 0 ∧ 0 < r.cap then
    some { addr := r.ptr, size := r.cap }
  else
    none

/-- Rust `RawResource::as_ptr` (src/src/lib.rs lines 104-107). -/
def RawResource.as_ptr (r : RawResource) : Nat := r.ptr

/-- Rust `RawResource::is_empty` (src/src/lib.rs lines 119-122):
`self.len == 0`. -/
def RawResource.is_empty (r : RawResource) : Bool := r.len == 0

/-- Rust `RawResource::as_slice` (src/src/lib.rs lines 132-136):
`slice::from_raw_parts(self.ptr, self.len)`, i.e. the `len` valid bytes of
the heap block at `ptr` — in the model, `mem`. -/
def RawResource.as_slice (r : RawResource) : List Nat := r.mem

/-- Accessor call `r.as_ptr()` modelled as a state transformer: the Rust
method takes `&self`, so it returns its value together with the (shared,
hence unchanged) resource. -/
def RawResource.as_ptrCall (r : RawResource) : Nat × RawResource :=
  (r.ptr, r)

/-- Accessor call `r.len()` modelled as a state transformer. -/
def RawResource.lenCall (r : RawResource) : Nat × RawResource :=
  (r.len, r)

/-- Accessor call `r.is_empty()` modelled as a state transformer. -/
def RawResource.is_emptyCall (r : RawResource) : Bool × RawResource :=
  (r.len == 0, r)

/-- Accessor call `r.as_slice()` modelled as a state transformer. -/
def RawResource.as_sliceCall (r : RawResource) : List Nat × RawResource :=
  (r.mem, r)

/-- A sample non-empty vector, used by witnesses: bytes `[1,2,3,4,5]` at
address 1 with capacity 5. -/
def sampleVec : Vec :=
  { addr := 1, data := [1, 2, 3, 4, 5], cap := 5,
    addr_ne := by decide, le_cap := by decide }

/-- A second sample vector with the same bytes and capacity as `sampleVec`
but a different address, used by the determinism witness. -/
def sampleVec2 : Vec :=
  { addr := 64, data := [1, 2, 3, 4, 5], cap := 5,
    addr_ne := by decide, le_cap := by decide }

/-- C1: for every non-empty byte vector `v`, `refine v` succeeds, and the
resulting resource's three stored fields exactly match the consumed
vector's start address, logical length and allocated capacity; the bytes
at its pointer are `v`'s bytes themselves (no byte is copied), so
`length()` equals `v`'s length and `as_slice` is byte-for-byte `v`. -/
theorem C1_refine_success_fields (v : Vec) (h : v.data ≠ []) :
    ∃ r : RawResource, RawResource.refine v = .ok r ∧
      r.ptr = v.addr ∧ r.len = v.data.length ∧ r.cap = v.cap ∧
      r.mem = v.data ∧ r.as_slice = v.data := by
  have hE : v.is_empty = false := by
    simpa [Vec.is_empty, List.isEmpty_iff] using h
  refine ⟨{ ptr := v.addr, len := v.data.length, cap := v.cap,
            mem := v.data }, ?_, rfl, rfl, rfl, rfl, rfl⟩
  simp [RawResource.refine, hE, Vec.as_mut_ptr, Vec.len, Vec.capacity]

/-- Witness for C1 at the concrete vector `[1,2,3,4,5]`. -/
theorem C1_witness :
    ∃ r : RawResource, RawResource.refine sampleVec = .ok r ∧
      r.ptr = sampleVec.addr ∧ r.len = sampleVec.data.length ∧
      r.cap = sampleVec.cap ∧ r.mem = sampleVec.data ∧
      r.as_slice = sampleVec.data :=
  C1_refine_success_fields sampleVec (by decide)

/-- C2: for every resource successfully constructed by `refine`,
destruction issues exactly one deallocation request, and that request
describes an allocation of the original capacity recorded at construction
(not the logical length) at the recorded address. -/
theorem C2_drop_releases_capacity (v : Vec) (r : RawResource)
    (h : RawResource.refine v = .ok r) :
    r.dropRequest = some { addr := v.addr, size := v.cap } ∧
    (r.dropRequest.map DeallocRequest.size) = some r.cap := by
  have hE : v.is_empty = false := by
    by_contra hne
    simp [RawResource.refine, eq_true_of_ne_false (Ne.intro hne)] at h
  have hr : r = { ptr := v.addr, len := v.data.length, cap := v.cap,
                  mem := v.data } := by
    simpa [RawResource.refine, hE, Vec.as_mut_ptr, Vec.len, Vec.capacity]
      using h.symm
  have hpos : 0 < v.cap := by
    have hd : v.data ≠ [] := by
      simpa [Vec.is_empty, List.isEmpty_iff] using hE
    calc 0 < v.data.length := List.length_pos.mpr hd
      _ ≤ v.cap := v.le_cap
  subst hr
  constructor
  · simp [RawResource.dropRequest, v.addr_ne, hpos]
  · simp [RawResource.dropRequest, v.addr_ne, hpos]

/-- Witness for C2 at the concrete vector `[1,2,3,4,5]`. -/
theorem C2_witness :
    (RawResource.dropRequest
        { ptr := 1, len := 5, cap := 5, mem := [1, 2, 3, 4, 5] }) =
      some { addr := sampleVec.addr, size := sampleVec.cap } ∧
    ((RawResource.dropRequest
        { ptr := 1, len := 5, cap := 5, mem := [1, 2, 3, 4, 5] }).map
      DeallocRequest.size) = some 5 :=
  C2_drop_releases_capacity sampleVec
    { ptr := 1, len := 5, cap := 5, mem := [1, 2, 3, 4, 5] } rfl

/-- C3: `refine data` fails if and only if `data` is empty; the only error
value it can produce is the `EmptyBuffer` message; and on failure no
resource is produced. -/
theorem C3_error_iff_empty (v : Vec) :
    (RawResource.refine v = .error emptyBufferMsg ↔ v.data = []) ∧
    (∀ e, RawResource.refine v = .error e → e = emptyBufferMsg) ∧
    (v.data = [] → ∀ r, RawResource.refine v ≠ .ok r) := by
  by_cases hd : v.data = []
  · have hE : v.is_empty = true := by
      simp [Vec.is_empty, hd]
    refine ⟨?_, ?_, ?_⟩
    · simp [RawResource.refine, hE, hd]
    · intro e he
      simpa [RawResource.refine, hE] using he.symm
    · intro _ r hr
      simp [RawResource.refine, hE] at hr
  · have hE : v.is_empty = false := by
      simpa [Vec.is_empty, List.isEmpty_iff] using hd
    refine ⟨?_, ?_, ?_⟩
    · simp [RawResource.refine, hE, hd]
    · intro e he
      simp [RawResource.refine, hE] at he
    · intro h0
      exact absurd h0 hd

/-- C4: for every resource successfully constructed by `refine`,
`is_empty()` returns `false` and `len()` is strictly positive; since no
operation mutates the stored fields, this holds over the whole lifetime. -/
theorem C4_never_empty (v : Vec) (r : RawResource)
    (h : RawResource.refine v = .ok r) :
    r.is_empty = false ∧ 0 < r.len := by
  have hE : v.is_empty = false := by
    by_contra hne
    simp [RawResource.refine, eq_true_of_ne_false (Ne.intro hne)] at h
  have hd : v.data ≠ [] := by
    simpa [Vec.is_empty, List.isEmpty_iff] using hE
  have hr : r = { ptr := v.addr, len := v.data.length, cap := v.cap,
                  mem := v.data } := by
    simpa [RawResource.refine, hE, Vec.as_mut_ptr, Vec.len, Vec.capacity]
      using h.symm
  have hpos : 0 < v.data.length := List.length_pos.mpr hd
  subst hr
  constructor
  · simp [RawResource.is_empty, Nat.pos_iff_ne_zero.mp hpos]
  · exact hpos

/-- Witness for C4 at the concrete vector `[1,2,3,4,5]`. -/
theorem C4_witness :
    RawResource.is_empty
        { ptr := 1, len := 5, cap := 5, mem := [1, 2, 3, 4, 5] } = false ∧
    0 < RawResource.len
        { ptr := 1, len := 5, cap := 5, mem := [1, 2, 3, 4, 5] } :=
  C4_never_empty sampleVec
    { ptr := 1, len := 5, cap := 5, mem := [1, 2, 3, 4, 5] } rfl

/-- C5: for every resource successfully constructed by `refine`, the stored
capacity is at least the stored length; no operation mutates the fields, so
the inequality is preserved over the lifetime. -/
theorem C5_cap_ge_len (v : Vec) (r : RawResource)
    (h : RawResource.refine v = .ok r) :
    r.len ≤ r.cap := by
  have hE : v.is_empty = false := by
    by_contra hne
    simp [RawResource.refine, eq_true_of_ne_false (Ne.intro hne)] at h
  have hr : r = { ptr := v.addr, len := v.data.length, cap := v.cap,
                  mem := v.data } := by
    simpa [RawResource.refine, hE, Vec.as_mut_ptr, Vec.len, Vec.capacity]
      using h.symm
  subst hr
  exact v.le_cap

/-- Witness for C5 at the concrete vector `[1,2,3,4,5]`. -/
theorem C5_witness :
    RawResource.len { ptr := 1, len := 5, cap := 5, mem := [1, 2, 3, 4, 5] } ≤
      RawResource.cap
        { ptr := 1, len := 5, cap := 5, mem := [1, 2, 3, 4, 5] } :=
  C5_cap_ge_len sampleVec
    { ptr := 1, len := 5, cap := 5, mem := [1, 2, 3, 4, 5] } rfl

/-- C6: for every resource constructed by `refine`, the stored pointer is
non-null and the capacity is positive, so the release branch of `Drop`
runs; and for any resource with a non-null pointer, the release happens if
and only if the stored capacity is positive.  `dropRequest` is a total
function issuing at most one request, so destruction never fails and has
no other side effects. -/
theorem C6_drop_condition (v : Vec) (r : RawResource)
    (h : RawResource.refine v = .ok r) :
    r.ptr ≠ 0 ∧ 0 < r.cap ∧ r.dropRequest.isSome = true ∧
    (∀ s : RawResource, s.ptr ≠ 0 →
      (s.dropRequest.isSome = true ↔ 0 < s.cap)) := by
  have hE : v.is_empty = false := by
    by_contra hne
    simp [RawResource.refine, eq_true_of_ne_false (Ne.intro hne)] at h
  have hd : v.data ≠ [] := by
    simpa [Vec.is_empty, List.isEmpty_iff] using hE
  have hr : r = { ptr := v.addr, len := v.data.length, cap := v.cap,
                  mem := v.data } := by
    simpa [RawResource.refine, hE, Vec.as_mut_ptr, Vec.len, Vec.capacity]
      using h.symm
  have hpos : 0 < v.cap :=
    lt_of_lt_of_le (List.length_pos.mpr hd) v.le_cap
  subst hr
  refine ⟨v.addr_ne, hpos, ?_, ?_⟩
  · simp [RawResource.dropRequest, v.addr_ne, hpos]
  · intro s hs
    by_cases hc : 0 < s.cap
    · simp [RawResource.dropRequest, hs, hc]
    · simp [RawResource.dropRequest, hc]

/-- Witness for C6 at the concrete vector `[1,2,3,4,5]`. -/
theorem C6_witness :
    RawResource.ptr { ptr := 1, len := 5, cap := 5, mem := [1, 2, 3, 4, 5] } ≠ 0 ∧
    0 < RawResource.cap
        { ptr := 1, len := 5, cap := 5, mem := [1, 2, 3, 4, 5] } ∧
    (RawResource.dropRequest
        { ptr := 1, len := 5, cap := 5, mem := [1, 2, 3, 4, 5] }).isSome = true ∧
    (∀ s : RawResource, s.ptr ≠ 0 →
      (s.dropRequest.isSome = true ↔ 0 < s.cap)) :=
  C6_drop_condition sampleVec
    { ptr := 1, len := 5, cap := 5, mem := [1, 2, 3, 4, 5] } rfl

/-- C7: the accessors `as_ptr`, `len`, `is_empty` and `as_slice` are total
functions of the resource: each call returns its value and leaves every
stored field of the resource unchanged. -/
theorem C7_accessors_pure (r : RawResource) :
    (r.as_ptrCall.1 = r.as_ptr ∧ r.as_ptrCall.2 = r) ∧
    (r.lenCall.1 = r.len ∧ r.lenCall.2 = r) ∧
    (r.is_emptyCall.1 = r.is_empty ∧ r.is_emptyCall.2 = r) ∧
    (r.as_sliceCall.1 = r.as_slice ∧ r.as_sliceCall.2 = r) ∧
    r.lenCall.2.ptr = r.ptr ∧ r.lenCall.2.len = r.len ∧
    r.lenCall.2.cap = r.cap :=
  ⟨⟨rfl, rfl⟩, ⟨rfl, rfl⟩, ⟨rfl, rfl⟩, ⟨rfl, rfl⟩, rfl, rfl, rfl⟩

/-- C9: for every `RawResource` value, `is_empty()` returns `true` exactly
when `len()` is zero — it is the zero test of the length field, not a
constant. -/
theorem C9_is_empty_iff_len_zero (r : RawResource) :
    r.is_empty = (r.len == 0) ∧ (r.is_empty = true ↔ r.len = 0) := by
  constructor
  · rfl
  · simp [RawResource.is_empty]

/-- C10: `refine` is deterministic up to the allocation address: two input
vectors with the same bytes and the same capacity yield the same
success-or-failure outcome, the same error if any, and on success
resources agreeing on `len`, `cap`, `is_empty` and the bytes seen through
`as_slice`. -/
theorem C10_deterministic (v₁ v₂ : Vec) (hd : v₁.data = v₂.data)
    (hc : v₁.cap = v₂.cap) :
    (RawResource.refine v₁).isOk = (RawResource.refine v₂).isOk ∧
    (∀ e, RawResource.refine v₁ = .error e ↔ RawResource.refine v₂ = .error e) ∧
    (∀ r₁ r₂, RawResource.refine v₁ = .ok r₁ → RawResource.refine v₂ = .ok r₂ →
      r₁.len = r₂.len ∧ r₁.cap = r₂.cap ∧ r₁.is_empty = r₂.is_empty ∧
      r₁.as_slice = r₂.as_slice) := by
  have hE : v₁.is_empty = v₂.is_empty := by
    simp [Vec.is_empty, hd]
  by_cases he : v₁.is_empty
  · refine ⟨?_, ?_, ?_⟩
    · simp [RawResource.refine, he, hE ▸ he]
    · intro e
      simp [RawResource.refine, he, hE ▸ he]
    · intro r₁ r₂ h₁ h₂
      simp [RawResource.refine, he] at h₁
  · have he₁ : v₁.is_empty = false := by simpa using he
    have he₂ : v₂.is_empty = false := hE ▸ he₁
    refine ⟨?_, ?_, ?_⟩
    · simp [RawResource.refine, he₁, he₂, Except.isOk, Except.toBool]
    · intro e
      simp [RawResource.refine, he₁, he₂]
    · intro r₁ r₂ h₁ h₂
      have hr₁ : r₁ = { ptr := v₁.addr, len := v₁.data.length,
                        cap := v₁.cap, mem := v₁.data } := by
        simpa [RawResource.refine, he₁, Vec.as_mut_ptr, Vec.len, Vec.capacity]
          using h₁.symm
      have hr₂ : r₂ = { ptr := v₂.addr, len := v₂.data.length,
                        cap := v₂.cap, mem := v₂.data } := by
        simpa [RawResource.refine, he₂, Vec.as_mut_ptr, Vec.len, Vec.capacity]
          using h₂.symm
      subst hr₁
      subst hr₂
      simp [RawResource.is_empty, RawResource.as_slice, hd, hc]

/-- Witness for C10 at two concrete vectors sharing bytes `[1,2,3,4,5]`
and capacity 5 but stored at different addresses. -/
theorem C10_witness :
    (RawResource.refine sampleVec).isOk = (RawResource.refine sampleVec2).isOk ∧
    (∀ e, RawResource.refine sampleVec = .error e ↔
      RawResource.refine sampleVec2 = .error e) ∧
    (∀ r₁ r₂, RawResource.refine sampleVec = .ok r₁ →
      RawResource.refine sampleVec2 = .ok r₂ →
      r₁.len = r₂.len ∧ r₁.cap = r₂.cap ∧ r₁.is_empty = r₂.is_empty ∧
      r₁.as_slice = r₂.as_slice) :=
  C10_deterministic sampleVec sampleVec2 (by decide) (by decide)

end PraborrowLogistics
